import Mathlib

/-!
# Verification of the fastq-dl acquisition engine (`fastq-dl.py`)

Shallow embedding of the download/retry/verify/merge logic of `fastq-dl.py`.
File contents are byte lists, the local file system is an association list
from path to contents, the network is an oracle giving the bytes delivered
by the n-th transport invocation, and the MD5 digest is an abstract function
from contents to hex strings (the engine only ever compares digests for
string equality, so any digest function yields the same control flow).
-/

/-- A file's contents: a list of bytes. -/
abbrev FileContents := List Nat

/-- The local file system: an association list from path to file contents. -/
abbrev FS := List (String × FileContents)

namespace FS

/-- Look up the contents stored at a path. -/
def lookup : FS → String → Option FileContents
  | [], _ => none
  | (q, c) :: rest, p => if q = p then some c else lookup rest p

/-- `os.path.exists`: does the path hold a file? -/
def contains (fs : FS) (p : String) : Bool :=
  (fs.lookup p).isSome

/-- `os.remove` / `Path.unlink`: delete the file at a path. -/
def remove : FS → String → FS
  | [], _ => []
  | e :: rest, p => if e.1 = p then remove rest p else e :: remove rest p

/-- Create or overwrite the file at a path with the given contents. -/
def write (fs : FS) (p : String) (c : FileContents) : FS :=
  (p, c) :: fs.remove p

end FS

/-- The ENA "definitive absence" tag (`ENA_FAILED` in the source). -/
def ENA_FAILED : String := "ENA_NOT_FOUND"

/-- The SRA "definitive absence" tag (`SRA_FAILED` in the source). -/
def SRA_FAILED : String := "SRA_NOT_FOUND"

/-- Split a character list on a separator character; the result is never
empty and splitting the empty list gives `[[]]`, matching Python's
`"".split(sep) == [""]`. -/
def splitCharList (c : Char) : List Char → List (List Char)
  | [] => [[]]
  | ch :: rest =>
    match splitCharList c rest with
    | [] => [[ch]]
    | g :: gs => if ch = c then [] :: g :: gs else (ch :: g) :: gs

/-- Python's `str.split(sep)` for a one-character separator (kernel-computable,
unlike `String.splitOn`). -/
def splitOnChar (c : Char) (s : String) : List String :=
  (splitCharList c s.data).map List.asString

/-- Python's `str.endswith` (kernel-computable, unlike `String.endsWith`). -/
def strEndsWith (s suffix : String) : Bool :=
  List.isSuffixOf suffix.data s.data

/-- `os.path.basename`: the component after the last `/`. -/
def basename (p : String) : String :=
  (splitOnChar '/' p).getLastD p

/-- `md5sum(fastq)`: the digest of the file at `p`, or `None` if the file
does not exist.  `digest` abstracts the streaming MD5 computation. -/
def md5sum (digest : FileContents → String) (fs : FS) (p : String) : Option String :=
  match fs.lookup p with
  | some c => some (digest c)
  | none => none

/-- Outcome of one iteration of the `while not success` loop of
`download_ena_fastq`. -/
inductive DlStep where
  /-- Digest mismatch, budget not yet fatal: loop again with this state. -/
  | retry (fs : FS) (ftpOnly : Bool) (attempt : Nat)
  /-- Digest matched: the file is accepted. -/
  | accepted (fs : FS)
  /-- Plain transport budget also exhausted: `sys.exit(1)`. -/
  | fatal (fs : FS)
  deriving DecidableEq, Repr

/-- One iteration of the download loop of `download_ena_fastq`:
the transport delivers `content` (or nothing), the digest of the target is
compared to the expected checksum; on mismatch the partial file is removed
and the attempt counter / transport mode are updated exactly as in the
source (`attempt += 1`; on exceeding the budget switch `ftp_only` on once,
resetting the counter, else `sys.exit(1)`). -/
def dl_step (content : Option FileContents) (digest : FileContents → String)
    (fastq expectedMd5 : String) (maxAttempts : Nat)
    (fs : FS) (ftpOnly : Bool) (attempt : Nat) : DlStep :=
  let fs1 := match content with
    | some c => fs.write fastq c
    | none => fs
  if md5sum digest fs1 fastq ≠ some expectedMd5 then
    let attempt1 := attempt + 1
    let fs2 := if fs1.contains fastq then fs1.remove fastq else fs1
    if attempt1 > maxAttempts then
      if ftpOnly = false then .retry fs2 true 0
      else .fatal fs2
    else .retry fs2 ftpOnly attempt1
  else .accepted fs1

/-- Result of `download_ena_fastq`: either the accepted path (with the file
system and the next unused network-oracle index) or the fatal abort. -/
inductive DlResult where
  | accepted (fastq : String) (fs : FS) (idx : Nat)
  | fatal (fs : FS) (idx : Nat)
  deriving DecidableEq, Repr

/-- The network-oracle index after the call: how far the transport oracle
has been consumed (each transport invocation consumes one index). -/
def DlResult.endIdx : DlResult → Nat
  | .accepted _ _ i => i
  | .fatal _ i => i

theorem dl_step_retry_cases (content : Option FileContents)
    (digest : FileContents → String) (fastq expectedMd5 : String)
    (maxAttempts : Nat) (fs : FS) (ftpOnly : Bool) (attempt : Nat)
    (fs2 : FS) (ftpOnly2 : Bool) (attempt2 : Nat)
    (h : dl_step content digest fastq expectedMd5 maxAttempts fs ftpOnly attempt =
      .retry fs2 ftpOnly2 attempt2) :
    (ftpOnly = false ∧ ftpOnly2 = true ∧ attempt2 = 0) ∨
    (ftpOnly2 = ftpOnly ∧ attempt2 = attempt + 1 ∧ attempt + 1 ≤ maxAttempts) := by
  cases content <;>
    · simp only [dl_step] at h
      split at h
      · split at h
        · split at h
          · exact Or.inl ⟨by assumption, (DlStep.retry.injEq _ _ _ _ _ _ ▸ h).2.1.symm,
              (DlStep.retry.injEq _ _ _ _ _ _ ▸ h).2.2.symm⟩
          · cases h
        · rename_i hgt
          refine Or.inr ⟨(DlStep.retry.injEq _ _ _ _ _ _ ▸ h).2.1.symm,
            (DlStep.retry.injEq _ _ _ _ _ _ ▸ h).2.2.symm, by omega⟩
      · cases h

/-- The `while not success` loop of `download_ena_fastq`, iterating
`dl_step`.  `idx` indexes the transport oracle (one invocation per
iteration).  `fuel` bounds the number of iterations so the loop is
structurally recursive; `dl_loop` below supplies fuel proven sufficient
(`dl_loop_fuel_stable`), so the out-of-fuel default is never taken. -/
def dl_loop_fuel (oracle : Nat → Option FileContents) (digest : FileContents → String)
    (fastq expectedMd5 : String) (maxAttempts : Nat) :
    Nat → FS → Bool → Nat → Nat → DlResult
  | 0, fs, _, _, idx => .fatal fs idx
  | fuel + 1, fs, ftpOnly, attempt, idx =>
    match dl_step (oracle idx) digest fastq expectedMd5 maxAttempts fs ftpOnly attempt with
    | .retry fs2 ftpOnly2 attempt2 =>
        dl_loop_fuel oracle digest fastq expectedMd5 maxAttempts fuel fs2 ftpOnly2 attempt2 (idx + 1)
    | .accepted fs1 => .accepted fastq fs1 (idx + 1)
    | .fatal fs2 => .fatal fs2 (idx + 1)

/-- Iterations the loop can still take from a given transport mode and
attempt count before exiting: the measure justifying its termination. -/
def dl_fuel_needed (maxAttempts : Nat) (ftpOnly : Bool) (attempt : Nat) : Nat :=
  (maxAttempts + 1 - attempt) + (if ftpOnly then 0 else maxAttempts + 1)

/-- With at least `dl_fuel_needed` fuel the loop's result no longer depends
on the fuel: the retry loop always exits within its attempt budget. -/
theorem dl_loop_fuel_stable (oracle : Nat → Option FileContents)
    (digest : FileContents → String) (fastq expectedMd5 : String) (maxAttempts : Nat) :
    ∀ fuel fs ftpOnly attempt idx, attempt ≤ maxAttempts →
      dl_fuel_needed maxAttempts ftpOnly attempt ≤ fuel →
      dl_loop_fuel oracle digest fastq expectedMd5 maxAttempts (fuel + 1) fs ftpOnly attempt idx =
        dl_loop_fuel oracle digest fastq expectedMd5 maxAttempts fuel fs ftpOnly attempt idx := by
  intro fuel
  induction fuel with
  | zero =>
    intro fs ftpOnly attempt idx hle hf
    simp [dl_fuel_needed] at hf
    omega
  | succ n ih =>
    intro fs ftpOnly attempt idx hle hf
    rw [dl_loop_fuel, dl_loop_fuel]
    cases hstep : dl_step (oracle idx) digest fastq expectedMd5 maxAttempts fs ftpOnly attempt with
    | retry fs2 ftpOnly2 attempt2 =>
      rcases dl_step_retry_cases _ _ _ _ _ _ _ _ _ _ _ hstep with ⟨h1, h2, h3⟩ | ⟨h1, h2, h3⟩
      · refine ih fs2 ftpOnly2 attempt2 (idx + 1) (by omega) ?_
        subst h1 h2 h3
        simp [dl_fuel_needed] at hf ⊢
        omega
      · refine ih fs2 ftpOnly2 attempt2 (idx + 1) (by omega) ?_
        subst h1 h2
        simp only [dl_fuel_needed] at hf ⊢
        split at hf <;> rename_i hb <;> simp [hb] <;> omega
    | accepted fs1 => rfl
    | fatal fs2 => rfl

/-- The `while not success` loop of `download_ena_fastq` with its fuel
instantiated to a sufficient bound (two full attempt budgets). -/
def dl_loop (oracle : Nat → Option FileContents) (digest : FileContents → String)
    (fastq expectedMd5 : String) (maxAttempts : Nat)
    (fs : FS) (ftpOnly : Bool) (attempt : Nat) (idx : Nat) : DlResult :=
  dl_loop_fuel oracle digest fastq expectedMd5 maxAttempts
    (2 * (maxAttempts + 1) + 1) fs ftpOnly attempt idx

/-- `download_ena_fastq(fasp, ftp, outdir, md5, aspera, ...)`: the per-file
download of the ENA provider.  The target path is `outdir/basename(fasp)`;
if it already exists the transfer is skipped entirely, otherwise the
verify/retry loop runs starting with `attempt = 0`.  `ftp` is only handed
to the external transport, whose delivered bytes the oracle abstracts. -/
def download_ena_fastq (oracle : Nat → Option FileContents)
    (digest : FileContents → String) (fasp ftp : String) (outdir expectedMd5 : String)
    (maxAttempts : Nat) (ftpOnly : Bool) (fs : FS) (idx : Nat) : DlResult :=
  if fs.contains (outdir ++ "/" ++ basename fasp) then
    .accepted (outdir ++ "/" ++ basename fasp) fs idx
  else
    dl_loop oracle digest (outdir ++ "/" ++ basename fasp) expectedMd5 maxAttempts fs ftpOnly 0 idx

/-- The attributes of one metadata row (`run`) used by the engine. -/
structure RunRecord where
  run_accession : String
  experiment_accession : String
  sample_accession : String
  library_layout : String
  fastq_aspera : String
  fastq_ftp : String
  fastq_md5 : String
  deriving DecidableEq, Repr

/-- The `fastqs` dictionary: output of a successful per-run download. -/
structure FileSet where
  r1 : String
  r2 : String
  single_end : Bool
  deriving DecidableEq, Repr

/-- Result of `ena_download`: definitive absence (`ENA_FAILED`), a Python
`IndexError` from the parallel-list indexing, the fatal abort propagated
from `download_ena_fastq`, or a `FileSet` (with file system and oracle
index). -/
inductive EnaRes where
  | enaNotFound
  | indexError
  | fatal (fs : FS) (idx : Nat)
  | ok (fq : FileSet) (fs : FS) (idx : Nat)
  deriving DecidableEq, Repr

/-- The `continue` condition of `ena_download`'s file loop: in `PAIRED`
layout, a file ending in neither `_2.fastq.gz` nor `_1.fastq.gz` is skipped
when `len(fasp) != 1 and obs_fq != exp_fq` — i.e. unless it is the only
file OR its basename is exactly `<run_accession>.fastq.gz`. -/
def ena_skip (layout : String) (total : Nat) (runAcc f : String) : Bool :=
  (layout == "PAIRED") && !strEndsWith f "_2.fastq.gz" && !strEndsWith f "_1.fastq.gz"
    && (total != 1 && (basename f != runAcc ++ ".fastq.gz"))

/-- The `for i in range(len(fasp))` loop of `ena_download`: `f :: rest` is
the remaining suffix of the split `fastq_aspera` list, `i` the current
index, `total` the full length `len(fasp)`.  A file skipped by `ena_skip`
contributes nothing; otherwise a non-empty checksum entry `md5[i]` triggers
the download; `md5[i]` and `ftp[i]` raise `IndexError` when out of range. -/
def ena_loop (runAcc layout : String) (total : Nat) (outdir : String)
    (oracle : Nat → Option FileContents) (digest : FileContents → String)
    (maxAttempts : Nat) (ftpOnly : Bool) (ftp md5 : List String) :
    List String → Nat → FileSet → FS → Nat → EnaRes
  | [], _, fq, fs, idx => .ok fq fs idx
  | f :: rest, i, fq, fs, idx =>
    let is_r2 := (layout == "PAIRED") && strEndsWith f "_2.fastq.gz"
    if ena_skip layout total runAcc f then
      ena_loop runAcc layout total outdir oracle digest maxAttempts ftpOnly ftp md5
        rest (i + 1) fq fs idx
    else
      match md5[i]? with
      | none => .indexError
      | some m =>
        if m ≠ "" then
          match ftp[i]? with
          | none => .indexError
          | some ft =>
            match download_ena_fastq oracle digest f ft outdir m maxAttempts ftpOnly fs idx with
            | .fatal fs2 idx2 => .fatal fs2 idx2
            | .accepted fastq fs2 idx2 =>
              let fq2 := if is_r2 then { fq with r2 := fastq, single_end := false }
                         else { fq with r1 := fastq }
              ena_loop runAcc layout total outdir oracle digest maxAttempts ftpOnly ftp md5
                rest (i + 1) fq2 fs2 idx2
        else
          ena_loop runAcc layout total outdir oracle digest maxAttempts ftpOnly ftp md5
            rest (i + 1) fq fs idx

/-- `ena_download(run, outdir, aspera, max_attempts, ftp_only)`: report
`ENA_FAILED` when neither URL field is present, else split the parallel
`;`-lists and run the per-file loop starting from the empty `fastqs`
dictionary `{r1: "", r2: "", single_end: True}`. -/
def ena_download (run : RunRecord) (outdir : String)
    (oracle : Nat → Option FileContents) (digest : FileContents → String)
    (maxAttempts : Nat) (ftpOnly : Bool) (fs : FS) (idx : Nat) : EnaRes :=
  if run.fastq_ftp = "" ∧ run.fastq_aspera = "" then .enaNotFound
  else
    ena_loop run.run_accession run.library_layout
      (splitOnChar ';' run.fastq_aspera).length outdir oracle digest
      maxAttempts ftpOnly (splitOnChar ';' run.fastq_ftp) (splitOnChar ';' run.fastq_md5)
      (splitOnChar ';' run.fastq_aspera) 0 ⟨"", "", true⟩ fs idx

/-- Result of `sra_download`: the `SRA_FAILED` tag or a `FileSet` with the
resulting file system. -/
inductive SraRes where
  | sraNotFound (fs : FS)
  | ok (fq : FileSet) (fs : FS)
  deriving DecidableEq, Repr

/-- `sra_download(accession, outdir, cpus, max_attempts)`.  The external
`fasterq-dump` + `pigz` invocation is abstracted by `tool`: `none` models
the reserved exit code 3 (no data at SRA, `SRA_FAILED`), `some fs2` the
file system it leaves behind.  The tool runs only when neither
`<accession>.fastq.gz` nor `<accession>_2.fastq.gz` already exists; layout
is then detected from the presence of `<accession>_2.fastq.gz`. -/
def sra_download (accession outdir : String) (tool : Option FS) (fs : FS) : SraRes :=
  match
    (if fs.contains (outdir ++ "/" ++ accession ++ ".fastq.gz") = false ∧
        fs.contains (outdir ++ "/" ++ accession ++ "_2.fastq.gz") = false then
      tool
    else some fs) with
  | none => .sraNotFound fs
  | some fs2 =>
    if fs2.contains (outdir ++ "/" ++ accession ++ "_2.fastq.gz") then
      .ok ⟨outdir ++ "/" ++ accession ++ "_1.fastq.gz",
           outdir ++ "/" ++ accession ++ "_2.fastq.gz", false⟩ fs2
    else
      .ok ⟨outdir ++ "/" ++ accession ++ ".fastq.gz", "", true⟩ fs2

/-- `cat r1 r2 ... > output`: the byte-wise concatenation, in list order, of
the contents of the named files. -/
def cat_contents (fs : FS) (runs : List String) : FileContents :=
  runs.foldr (fun p acc => ((fs.lookup p).getD []) ++ acc) []

/-- `merge_runs(runs, output)`: more than one file is concatenated into
`output` and the sources are then deleted; exactly one file is renamed to
`output`; the empty list raises `IndexError` at `runs[0]` (modelled as
`none`). -/
def merge_runs (runs : List String) (output : String) (fs : FS) : Option FS :=
  if runs.length > 1 then
    let fs2 := fs.write output (cat_contents fs runs)
    some (runs.foldl (fun a p => a.remove p) fs2)
  else
    match runs with
    | [] => none
    | r :: _ => some ((fs.remove r).write output ((fs.lookup r).getD []))

/-- The body of the final merge loop of `main` for one group `name` with
accumulated lists `r1`, `r2`: paired targets `<name>_R1/_R2.fastq.gz` when
both lists are non-empty and of equal length, else the single target
`<name>.fastq.gz` from the r1 list alone. -/
def merge_group (name outdir : String) (r1 r2 : List String) (fs : FS) : Option FS :=
  if r1.length ≠ 0 ∧ r2.length ≠ 0 then
    if r1.length = r2.length then
      match merge_runs r1 (outdir ++ "/" ++ name ++ "_R1.fastq.gz") fs with
      | none => none
      | some fs1 => merge_runs r2 (outdir ++ "/" ++ name ++ "_R2.fastq.gz") fs1
    else merge_runs r1 (outdir ++ "/" ++ name ++ ".fastq.gz") fs
  else merge_runs r1 (outdir ++ "/" ++ name ++ ".fastq.gz") fs

/-- Per-run outcome of the fallback coordination in `main`: the `fastqs`
value (if any), the `error` annotation appended to the run record (if any),
and — for observability of which providers were invoked — the providers
attempted, in order. -/
structure RunOutcome where
  fastqs : Option FileSet
  error : Option String
  attempted : List String
  deriving DecidableEq, Repr

/-- The per-run provider/fallback state machine of `main`.  `enaResult` /
`sraResult` abstract the two provider downloads for this run (`none` is the
provider's definitive-absence tag).  Primary = `"ena"`: on `ENA_FAILED`
either record the single tag (when `--only-provider`) or fall back to SRA,
recording `"ENA_NOT_FOUND&SRA_NOT_FOUND"` on double failure.  Primary =
`"sra"` is symmetric, with `--sra_only` also disabling the fallback. -/
def process_run (provider : String) (onlyProvider sraOnly : Bool)
    (enaResult sraResult : Option FileSet) : RunOutcome :=
  if provider = "ena" then
    match enaResult with
    | some fq => ⟨some fq, none, ["ena"]⟩
    | none =>
      if onlyProvider then ⟨none, some ENA_FAILED, ["ena"]⟩
      else
        match sraResult with
        | some fq => ⟨some fq, none, ["ena", "sra"]⟩
        | none => ⟨none, some (ENA_FAILED ++ "&" ++ SRA_FAILED), ["ena", "sra"]⟩
  else
    match sraResult with
    | some fq => ⟨some fq, none, ["sra"]⟩
    | none =>
      if sraOnly ∨ onlyProvider then ⟨none, some SRA_FAILED, ["sra"]⟩
      else
        match enaResult with
        | some fq => ⟨some fq, none, ["sra", "ena"]⟩
        | none => ⟨none, some (SRA_FAILED ++ "&" ++ ENA_FAILED), ["sra", "ena"]⟩

/-- Outcome of one attempt of the external command run by `execute`. -/
inductive CmdAttempt where
  | success (stdout : String) (returncode : Int)
  | failure (returncode : Int) (stderrFirst : String)
  deriving DecidableEq, Repr

/-- What `execute` produces: the captured stdout or return code on success,
Python's implicit `None` when the `while` loop never runs
(`max_attempts = 0`), the `SRA_FAILED` tag, or the re-raised last error. -/
inductive ExecResult where
  | noAttempt
  | captured (stdout : String)
  | finished (returncode : Int)
  | sraNotFound (stderrFirst : String)
  | raised (returncode : Int)
  deriving DecidableEq, Repr

/-- Result of `execute` plus the observable effort: how many attempts were
started and how many seconds were spent in `time.sleep` backoffs. -/
structure ExecTrace where
  result : ExecResult
  attemptsMade : Nat
  sleepSeconds : Nat
  deriving DecidableEq, Repr

/-- The `while attempt < max_attempts` loop of `execute`, with
`remaining = max_attempts - attempt` as the structural argument.  Success
returns stdout or the return code; a failing attempt with `is_sra` and exit
code 3 returns `SRA_FAILED` immediately; any other failure sleeps 10
seconds and retries while attempts remain, and re-raises the last error
once they are exhausted. -/
def execute_go (cmdAttempts : Nat → CmdAttempt) (captureStdout isSra : Bool) :
    Nat → Nat → Nat → ExecTrace
  | 0, attempt, slept => ⟨.noAttempt, attempt, slept⟩
  | remaining + 1, attempt, slept =>
    match cmdAttempts attempt with
    | .success out rc =>
      ⟨if captureStdout then .captured out else .finished rc, attempt + 1, slept⟩
    | .failure rc errFirst =>
      if isSra = true ∧ rc = 3 then ⟨.sraNotFound errFirst, attempt + 1, slept⟩
      else if 0 < remaining then
        execute_go cmdAttempts captureStdout isSra remaining (attempt + 1) (slept + 10)
      else ⟨.raised rc, attempt + 1, slept⟩

/-- `execute(cmd, ..., max_attempts, is_sra)`: run the command with up to
`maxAttempts` attempts.  `cmdAttempts n` is the outcome of the n-th
invocation of the external command. -/
def execute (cmdAttempts : Nat → CmdAttempt) (captureStdout isSra : Bool)
    (maxAttempts : Nat) : ExecTrace :=
  execute_go cmdAttempts captureStdout isSra maxAttempts 0 0

/-- One merge group: the ordered r1 and r2 path lists accumulated from the
runs that contributed to it (`runs[name]` in `main`). -/
structure MergeGroup where
  r1 : List String
  r2 : List String
  deriving DecidableEq, Repr

/-- Look up a group by name in the accumulator (`name in runs`). -/
def groups_find : List (String × MergeGroup) → String → Option MergeGroup
  | [], _ => none
  | (m, g) :: rest, n => if m = n then some g else groups_find rest n

/-- `runs[name] = g`: replace the entry in place, or append a new one,
matching Python dict insertion-order semantics. -/
def groups_upsert : List (String × MergeGroup) → String → MergeGroup →
    List (String × MergeGroup)
  | [], n, g => [(n, g)]
  | (m, h) :: rest, n, g =>
    if m = n then (n, g) :: rest else (m, h) :: groups_upsert rest n g

/-- The group-accumulation step of `main` for one successfully downloaded
run: create the group on first contribution, then append the `FileSet`'s
r1 path always and its r2 path only for a paired set. -/
def add_run_to_groups (gs : List (String × MergeGroup)) (name : String)
    (fq : FileSet) : List (String × MergeGroup) :=
  let g := (groups_find gs name).getD ⟨[], []⟩
  let g2 := if fq.single_end then MergeGroup.mk (g.r1 ++ [fq.r1]) g.r2
            else MergeGroup.mk (g.r1 ++ [fq.r1]) (g.r2 ++ [fq.r2])
  groups_upsert gs name g2

/-- The run loop of `main`, restricted to the accumulator: fold the per-run
outcomes (grouping name, `fastqs` or `None`) into the merge groups; runs
with no `fastqs` contribute nothing. -/
def accumulate_groups (results : List (String × Option FileSet)) :
    List (String × MergeGroup) :=
  results.foldl
    (fun gs r =>
      match r.2 with
      | none => gs
      | some fq => add_run_to_groups gs r.1 fq)
    []

/-! ## Lemmas about the file-system model -/

theorem FS.lookup_remove (fs : FS) (p q : String) :
    (fs.remove p).lookup q = if p = q then none else fs.lookup q := by
  induction fs with
  | nil => simp [FS.remove, FS.lookup]
  | cons e rest ih =>
    simp only [FS.remove]
    by_cases hep : e.1 = p
    · rw [if_pos hep, ih]
      by_cases hpq : p = q
      · simp [hpq]
      · have heq : e.1 ≠ q := by rw [hep]; exact hpq
        simp [FS.lookup, hpq, heq]
    · rw [if_neg hep]
      simp only [FS.lookup]
      by_cases heq : e.1 = q
      · have hpq : p ≠ q := fun h => hep (by rw [h, heq])
        simp [heq, hpq]
      · simp [heq, ih]

theorem FS.lookup_write_self (fs : FS) (p : String) (c : FileContents) :
    (fs.write p c).lookup p = some c := by
  simp [FS.write, FS.lookup]

theorem FS.lookup_write_other (fs : FS) (p q : String) (c : FileContents) (h : p ≠ q) :
    (fs.write p c).lookup q = fs.lookup q := by
  simp [FS.write, FS.lookup, h, FS.lookup_remove]

theorem FS.contains_remove_self (fs : FS) (p : String) :
    (fs.remove p).contains p = false := by
  simp [FS.contains, FS.lookup_remove]

theorem md5sum_some_contains (digest : FileContents → String) (fs : FS) (p : String)
    (s : String) (h : md5sum digest fs p = some s) : fs.contains p = true := by
  unfold md5sum at h
  unfold FS.contains
  cases hl : fs.lookup p <;> simp [hl] at h ⊢

theorem str_length_ne_empty {s : String} (h : s.length ≠ 0) : s ≠ "" := by
  intro he
  subst he
  simp at h

theorem slash_path_ne_empty (a b : String) : a ++ "/" ++ b ≠ "" := by
  apply str_length_ne_empty
  have h1 : ("/" : String).length = 1 := rfl
  simp only [String.length_append, h1]
  omega

theorem slash_path3_ne_empty (a b c : String) : a ++ "/" ++ b ++ c ≠ "" := by
  apply str_length_ne_empty
  have h1 : ("/" : String).length = 1 := rfl
  simp only [String.length_append, h1]
  omega

/-! ## Lemmas about the download/verify loop -/

theorem dl_step_accepted_md5 (content : Option FileContents)
    (digest : FileContents → String) (fastq expectedMd5 : String)
    (maxAttempts : Nat) (fs : FS) (ftpOnly : Bool) (attempt : Nat) (fs1 : FS)
    (h : dl_step content digest fastq expectedMd5 maxAttempts fs ftpOnly attempt =
      .accepted fs1) :
    md5sum digest fs1 fastq = some expectedMd5 := by
  cases content <;>
  · simp only [dl_step] at h
    split at h
    · split at h
      · split at h <;> cases h
      · cases h
    · rename_i hm
      cases h
      exact not_not.mp hm

theorem dl_step_retry_contains (content : Option FileContents)
    (digest : FileContents → String) (fastq expectedMd5 : String)
    (maxAttempts : Nat) (fs : FS) (ftpOnly : Bool) (attempt : Nat)
    (fs2 : FS) (ftpOnly2 : Bool) (attempt2 : Nat)
    (h : dl_step content digest fastq expectedMd5 maxAttempts fs ftpOnly attempt =
      .retry fs2 ftpOnly2 attempt2) :
    fs2.contains fastq = false := by
  cases content <;>
  · simp only [dl_step] at h
    split at h
    · split at h
      · split at h
        · cases h
          split
          · exact FS.contains_remove_self _ _
          · rename_i hc
            simpa using hc
        · cases h
      · cases h
        split
        · exact FS.contains_remove_self _ _
        · rename_i hc
          simpa using hc
    · cases h

theorem dl_step_fatal_contains (content : Option FileContents)
    (digest : FileContents → String) (fastq expectedMd5 : String)
    (maxAttempts : Nat) (fs : FS) (ftpOnly : Bool) (attempt : Nat) (fs2 : FS)
    (h : dl_step content digest fastq expectedMd5 maxAttempts fs ftpOnly attempt =
      .fatal fs2) :
    fs2.contains fastq = false := by
  cases content <;>
  · simp only [dl_step] at h
    split at h
    · split at h
      · split at h
        · cases h
        · cases h
          split
          · exact FS.contains_remove_self _ _
          · rename_i hc
            simpa using hc
      · cases h
    · cases h

theorem dl_step_fatal_cases (content : Option FileContents)
    (digest : FileContents → String) (fastq expectedMd5 : String)
    (maxAttempts : Nat) (fs : FS) (ftpOnly : Bool) (attempt : Nat) (fs2 : FS)
    (h : dl_step content digest fastq expectedMd5 maxAttempts fs ftpOnly attempt =
      .fatal fs2) :
    ftpOnly = true ∧ attempt + 1 > maxAttempts := by
  cases content <;>
  · simp only [dl_step] at h
    split at h
    · split at h
      · split at h
        · cases h
        · rename_i hgt hft
          cases h
          exact ⟨by simpa using hft, hgt⟩
      · cases h
    · cases h

theorem dl_loop_fuel_accepted_spec (oracle : Nat → Option FileContents)
    (digest : FileContents → String) (fastq expectedMd5 : String) (maxAttempts : Nat) :
    ∀ fuel fs ftpOnly attempt idx f fs2 i2,
      dl_loop_fuel oracle digest fastq expectedMd5 maxAttempts fuel fs ftpOnly attempt idx =
        .accepted f fs2 i2 →
      f = fastq ∧ md5sum digest fs2 fastq = some expectedMd5 := by
  intro fuel
  induction fuel with
  | zero =>
    intro fs ftpOnly attempt idx f fs2 i2 h
    cases h
  | succ n ih =>
    intro fs ftpOnly attempt idx f fs2 i2 h
    rw [dl_loop_fuel] at h
    cases hstep : dl_step (oracle idx) digest fastq expectedMd5 maxAttempts fs ftpOnly attempt with
    | retry fs3 ftpOnly3 attempt3 =>
      rw [hstep] at h
      exact ih fs3 ftpOnly3 attempt3 (idx + 1) f fs2 i2 h
    | accepted fs1 =>
      rw [hstep] at h
      cases h
      exact ⟨rfl, dl_step_accepted_md5 _ _ _ _ _ _ _ _ _ hstep⟩
    | fatal fs3 =>
      rw [hstep] at h
      cases h

theorem dl_loop_fuel_endIdx (oracle : Nat → Option FileContents)
    (digest : FileContents → String) (fastq expectedMd5 : String) (maxAttempts : Nat) :
    ∀ fuel fs ftpOnly attempt idx,
      (dl_loop_fuel oracle digest fastq expectedMd5 maxAttempts fuel fs ftpOnly attempt idx).endIdx
        ≤ idx + fuel := by
  intro fuel
  induction fuel with
  | zero =>
    intro fs ftpOnly attempt idx
    simp [dl_loop_fuel, DlResult.endIdx]
  | succ n ih =>
    intro fs ftpOnly attempt idx
    rw [dl_loop_fuel]
    cases hstep : dl_step (oracle idx) digest fastq expectedMd5 maxAttempts fs ftpOnly attempt with
    | retry fs3 ftpOnly3 attempt3 =>
      dsimp only
      have := ih fs3 ftpOnly3 attempt3 (idx + 1)
      omega
    | accepted fs1 =>
      dsimp only [DlResult.endIdx]
      omega
    | fatal fs3 =>
      dsimp only [DlResult.endIdx]
      omega

theorem download_accepted_target (oracle : Nat → Option FileContents)
    (digest : FileContents → String) (fasp ftp outdir expectedMd5 : String)
    (maxAttempts : Nat) (ftpOnly : Bool) (fs : FS) (idx : Nat) (f : String)
    (fs2 : FS) (i2 : Nat)
    (h : download_ena_fastq oracle digest fasp ftp outdir expectedMd5 maxAttempts ftpOnly fs idx =
      .accepted f fs2 i2) :
    f = outdir ++ "/" ++ basename fasp ∧
      fs2.contains (outdir ++ "/" ++ basename fasp) = true := by
  unfold download_ena_fastq at h
  split at h
  · cases h
    exact ⟨rfl, by assumption⟩
  · obtain ⟨h1, h2⟩ := dl_loop_fuel_accepted_spec _ _ _ _ _ _ _ _ _ _ _ _ _ h
    exact ⟨h1, md5sum_some_contains _ _ _ _ h2⟩

/-! ## C1: checksum-gated acceptance in `download_ena_fastq` -/

/-- **C1 counterexample.** When the target path already exists before the
call (here holding contents whose digest is `"X"`, not the expected `"m"`),
`download_ena_fastq` skips the loop and returns that path with no digest
check: the claim that it "never returns normally pointing at a file whose
MD5 digest differs from the expected checksum" is false as stated. -/
theorem downloadOne_accepts_preexisting_mismatch_cex :
    download_ena_fastq (fun _ => some [7]) (fun c => if c = [1] then "X" else "m")
      "h/A.fastq.gz" "h/A.fastq.gz" "out" "m" 10 false [("out/A.fastq.gz", [1])] 0 =
      .accepted "out/A.fastq.gz" [("out/A.fastq.gz", [1])] 0 ∧
    md5sum (fun c => if c = [1] then "X" else "m") [("out/A.fastq.gz", [1])] "out/A.fastq.gz"
      ≠ some "m" :=
  ⟨by decide, by decide⟩

/-- **C1 (amended).** Provided the target file does not already exist before
the call (so the download loop actually runs), `download_ena_fastq` never
accepts a file whose digest differs from the expected checksum: any
accepted result holds the target path with a matching digest.  Moreover on
every digest mismatch after a completed transfer the partial/corrupt file
is deleted before any retry: every `retry` and every `fatal` outcome of a
loop iteration (`dl_step`) leaves the file system without the target. -/
theorem downloadOne_verifies_md5_and_deletes_on_mismatch :
    (∀ (oracle : Nat → Option FileContents) (digest : FileContents → String)
       (fasp ftp outdir expectedMd5 : String) (maxAttempts : Nat) (ftpOnly : Bool)
       (fs : FS) (idx : Nat) (f : String) (fs2 : FS) (i2 : Nat),
       fs.contains (outdir ++ "/" ++ basename fasp) = false →
       download_ena_fastq oracle digest fasp ftp outdir expectedMd5 maxAttempts ftpOnly fs idx =
         .accepted f fs2 i2 →
       f = outdir ++ "/" ++ basename fasp ∧ md5sum digest fs2 f = some expectedMd5) ∧
    (∀ (content : Option FileContents) (digest : FileContents → String)
       (fastq expectedMd5 : String) (maxAttempts : Nat) (fs : FS) (ftpOnly : Bool)
       (attempt : Nat) (fs2 : FS) (ftpOnly2 : Bool) (attempt2 : Nat),
       dl_step content digest fastq expectedMd5 maxAttempts fs ftpOnly attempt =
         .retry fs2 ftpOnly2 attempt2 →
       fs2.contains fastq = false) ∧
    (∀ (content : Option FileContents) (digest : FileContents → String)
       (fastq expectedMd5 : String) (maxAttempts : Nat) (fs : FS) (ftpOnly : Bool)
       (attempt : Nat) (fs2 : FS),
       dl_step content digest fastq expectedMd5 maxAttempts fs ftpOnly attempt = .fatal fs2 →
       fs2.contains fastq = false) := by
  refine ⟨?_, ?_, ?_⟩
  · intro oracle digest fasp ftp outdir expectedMd5 maxAttempts ftpOnly fs idx f fs2 i2 hpre hacc
    unfold download_ena_fastq at hacc
    rw [if_neg (by simp [hpre])] at hacc
    obtain ⟨h1, h2⟩ := dl_loop_fuel_accepted_spec _ _ _ _ _ _ _ _ _ _ _ _ _ hacc
    exact ⟨h1, by rw [h1]; exact h2⟩
  · exact fun c d fq m mx fs fo a fs2 fo2 a2 h =>
      dl_step_retry_contains c d fq m mx fs fo a fs2 fo2 a2 h
  · exact fun c d fq m mx fs fo a fs2 h =>
      dl_step_fatal_contains c d fq m mx fs fo a fs2 h

/-- **C1 witness.** A concrete fresh download whose accepted file digests
to the expected checksum. -/
theorem downloadOne_verifies_md5_witness :
    "out/A.fastq.gz" = "out" ++ "/" ++ basename "h/A.fastq.gz" ∧
      md5sum (fun _ => "m") [("out/A.fastq.gz", [7])] "out/A.fastq.gz" = some "m" :=
  downloadOne_verifies_md5_and_deletes_on_mismatch.1 (fun _ => some [7]) (fun _ => "m")
    "h/A.fastq.gz" "h/A.fastq.gz" "out" "m" 10 false [] 0
    "out/A.fastq.gz" [("out/A.fastq.gz", [7])] 1 (by decide) (by decide)

/-! ## C3: one-shot transport downgrade, bounded retries -/

/-- **C3.** When the per-file attempt count exceeds the budget on a digest
mismatch while the accelerated transport is in use, the loop iteration
switches to plain transport with the attempt counter reset to 0 (never
fatal from accelerated mode); when already plain-only, exceeding the budget
is fatal (the process exits).  A retry issued from plain-only mode is
always still plain-only, so the downgrade happens at most once per file.
The whole loop performs at most `2 * (maxAttempts + 1) + 1` transport
invocations, so it cannot run forever. -/
theorem transport_downgrade_one_shot_and_bounded :
    (∀ (content : Option FileContents) (digest : FileContents → String)
       (fastq expectedMd5 : String) (maxAttempts : Nat) (fs : FS) (attempt : Nat),
       attempt + 1 > maxAttempts →
       (∃ fs2, dl_step content digest fastq expectedMd5 maxAttempts fs false attempt =
          .retry fs2 true 0) ∨
       (∃ fs1, dl_step content digest fastq expectedMd5 maxAttempts fs false attempt =
          .accepted fs1)) ∧
    (∀ (content : Option FileContents) (digest : FileContents → String)
       (fastq expectedMd5 : String) (maxAttempts : Nat) (fs : FS) (attempt : Nat),
       attempt + 1 > maxAttempts →
       (∃ fs2, dl_step content digest fastq expectedMd5 maxAttempts fs true attempt =
          .fatal fs2) ∨
       (∃ fs1, dl_step content digest fastq expectedMd5 maxAttempts fs true attempt =
          .accepted fs1)) ∧
    (∀ (content : Option FileContents) (digest : FileContents → String)
       (fastq expectedMd5 : String) (maxAttempts : Nat) (fs : FS) (attempt : Nat)
       (fs2 : FS) (ftpOnly2 : Bool) (attempt2 : Nat),
       dl_step content digest fastq expectedMd5 maxAttempts fs true attempt =
         .retry fs2 ftpOnly2 attempt2 →
       ftpOnly2 = true) ∧
    (∀ (oracle : Nat → Option FileContents) (digest : FileContents → String)
       (fastq expectedMd5 : String) (maxAttempts : Nat) (fs : FS) (ftpOnly : Bool)
       (attempt : Nat) (idx : Nat),
       (dl_loop oracle digest fastq expectedMd5 maxAttempts fs ftpOnly attempt idx).endIdx
         ≤ idx + 2 * (maxAttempts + 1) + 1) := by
  refine ⟨?_, ?_, ?_, ?_⟩
  · intro content digest fastq expectedMd5 maxAttempts fs attempt hgt
    cases hds : dl_step content digest fastq expectedMd5 maxAttempts fs false attempt with
    | retry fs2 fo2 a2 =>
      rcases dl_step_retry_cases _ _ _ _ _ _ _ _ _ _ _ hds with ⟨_, h2, h3⟩ | ⟨_, h2, h3⟩
      · subst h2 h3
        exact Or.inl ⟨fs2, rfl⟩
      · omega
    | accepted fs1 => exact Or.inr ⟨fs1, rfl⟩
    | fatal fs2 =>
      obtain ⟨h1, _⟩ := dl_step_fatal_cases _ _ _ _ _ _ _ _ _ hds
      simp at h1
  · intro content digest fastq expectedMd5 maxAttempts fs attempt hgt
    cases hds : dl_step content digest fastq expectedMd5 maxAttempts fs true attempt with
    | retry fs2 fo2 a2 =>
      rcases dl_step_retry_cases _ _ _ _ _ _ _ _ _ _ _ hds with ⟨h1, _, _⟩ | ⟨_, _, h3⟩
      · simp at h1
      · omega
    | accepted fs1 => exact Or.inr ⟨fs1, rfl⟩
    | fatal fs2 => exact Or.inl ⟨fs2, rfl⟩
  · intro content digest fastq expectedMd5 maxAttempts fs attempt fs2 ftpOnly2 attempt2 h
    rcases dl_step_retry_cases _ _ _ _ _ _ _ _ _ _ _ h with ⟨h1, _, _⟩ | ⟨h1, _, _⟩
    · cases h1
    · exact h1
  · intro oracle digest fastq expectedMd5 maxAttempts fs ftpOnly attempt idx
    have := dl_loop_fuel_endIdx oracle digest fastq expectedMd5 maxAttempts
      (2 * (maxAttempts + 1) + 1) fs ftpOnly attempt idx
    unfold dl_loop
    omega

/-- **C3 witness.** A concrete over-budget accelerated mismatch step. -/
theorem transport_downgrade_witness :
    (∃ fs2, dl_step (some [1]) (fun _ => "X") "t" "m" 0 [] false 0 = .retry fs2 true 0) ∨
    (∃ fs1, dl_step (some [1]) (fun _ => "X") "t" "m" 0 [] false 0 = .accepted fs1) :=
  transport_downgrade_one_shot_and_bounded.1 (some [1]) (fun _ => "X") "t" "m" 0 [] 0
    (by decide)

/-! ## C6: idempotence on an existing target -/

/-- **C6.** When the target path already exists, `download_ena_fastq`
returns it with the file system and oracle index unchanged — no transport
invocation, no digest computation in the loop.  Consequently a second
invocation after any accepted first invocation returns the same path and
file system, for any oracle position: re-running the downloader on an
existing target is idempotent. -/
theorem downloadOne_idempotent_on_existing_target :
    (∀ (oracle : Nat → Option FileContents) (digest : FileContents → String)
       (fasp ftp outdir expectedMd5 : String) (maxAttempts : Nat) (ftpOnly : Bool)
       (fs : FS) (idx : Nat),
       fs.contains (outdir ++ "/" ++ basename fasp) = true →
       download_ena_fastq oracle digest fasp ftp outdir expectedMd5 maxAttempts ftpOnly fs idx =
         .accepted (outdir ++ "/" ++ basename fasp) fs idx) ∧
    (∀ (oracle : Nat → Option FileContents) (digest : FileContents → String)
       (fasp ftp outdir expectedMd5 : String) (maxAttempts : Nat) (ftpOnly : Bool)
       (fs : FS) (idx : Nat) (f : String) (fs2 : FS) (i2 idx3 : Nat),
       download_ena_fastq oracle digest fasp ftp outdir expectedMd5 maxAttempts ftpOnly fs idx =
         .accepted f fs2 i2 →
       download_ena_fastq oracle digest fasp ftp outdir expectedMd5 maxAttempts ftpOnly fs2 idx3 =
         .accepted f fs2 idx3) := by
  constructor
  · intro oracle digest fasp ftp outdir expectedMd5 maxAttempts ftpOnly fs idx h
    unfold download_ena_fastq
    rw [if_pos h]
  · intro oracle digest fasp ftp outdir expectedMd5 maxAttempts ftpOnly fs idx f fs2 i2 idx3 h
    obtain ⟨h1, h2⟩ := download_accepted_target _ _ _ _ _ _ _ _ _ _ _ _ _ h
    unfold download_ena_fastq
    rw [if_pos h2, h1]

/-- **C6 witness.** A concrete re-invocation on an existing target. -/
theorem downloadOne_idempotent_witness :
    download_ena_fastq (fun _ => some [7]) (fun _ => "m") "h/A.fastq.gz" "h/A.fastq.gz"
      "out" "m" 10 false [("out/A.fastq.gz", [7])] 5 =
      .accepted ("out" ++ "/" ++ basename "h/A.fastq.gz") [("out/A.fastq.gz", [7])] 5 :=
  downloadOne_idempotent_on_existing_target.1 (fun _ => some [7]) (fun _ => "m")
    "h/A.fastq.gz" "h/A.fastq.gz" "out" "m" 10 false [("out/A.fastq.gz", [7])] 5 (by decide)

/-! ## C4: cross-archive fallback tagging -/

/-- **C4.** Under primary SRA with fallback enabled, `SRA_NOT_FOUND`
followed by `ENA_NOT_FOUND` yields the annotation exactly
`"SRA_NOT_FOUND&ENA_NOT_FOUND"` and no `FileSet`; under primary ENA the
compound tag is exactly `"ENA_NOT_FOUND&SRA_NOT_FOUND"`.  With fallback
disabled (`--only-provider`, or `--sra_only` for primary SRA) the secondary
provider is never attempted (only the primary appears in the attempted
list) and the single-provider tag is recorded directly. -/
theorem fallback_compound_tags_and_only_provider :
    process_run "sra" false false none none =
      ⟨none, some "SRA_NOT_FOUND&ENA_NOT_FOUND", ["sra", "ena"]⟩ ∧
    process_run "ena" false false none none =
      ⟨none, some "ENA_NOT_FOUND&SRA_NOT_FOUND", ["ena", "sra"]⟩ ∧
    (∀ (sraResult : Option FileSet) (sraOnly : Bool),
      process_run "ena" true sraOnly none sraResult =
        ⟨none, some "ENA_NOT_FOUND", ["ena"]⟩) ∧
    (∀ (enaResult : Option FileSet) (sraOnly : Bool),
      process_run "sra" true sraOnly enaResult none =
        ⟨none, some "SRA_NOT_FOUND", ["sra"]⟩) ∧
    (∀ (enaResult : Option FileSet) (onlyProvider : Bool),
      process_run "sra" onlyProvider true enaResult none =
        ⟨none, some "SRA_NOT_FOUND", ["sra"]⟩) := by
  refine ⟨by decide, by decide, ?_, ?_, ?_⟩
  · intro s so
    rfl
  · intro e so
    cases so <;> rfl
  · intro e op
    rfl

/-! ## C7: `execute` retry policy -/

/-- With every attempt failing with the same non-"SRA exit 3" error, the
loop retries with a 10-second backoff each time and finally re-raises. -/
theorem execute_go_all_fail (cmdAttempts : Nat → CmdAttempt) (captureStdout isSra : Bool)
    (rc : Int) (err : String)
    (hall : ∀ n, cmdAttempts n = .failure rc err)
    (hnot : ¬(isSra = true ∧ rc = 3)) :
    ∀ remaining attempt slept, 1 ≤ remaining →
      execute_go cmdAttempts captureStdout isSra remaining attempt slept =
        ⟨.raised rc, attempt + remaining, slept + 10 * (remaining - 1)⟩ := by
  intro remaining
  induction remaining with
  | zero => intro attempt slept h; omega
  | succ n ih =>
    intro attempt slept h
    simp only [execute_go]
    rw [hall attempt]
    simp only [if_neg hnot]
    by_cases h0 : 0 < n
    · rw [if_pos h0, ih (attempt + 1) (slept + 10) (by omega)]
      simp only [ExecTrace.mk.injEq]
      exact ⟨by trivial, by omega, by omega⟩
    · rw [if_neg h0]
      simp only [ExecTrace.mk.injEq]
      exact ⟨by trivial, by omega, by omega⟩

/-- **C7.** `execute`'s attempt loop: (i) with `is_sra` set, a failing
attempt with exit status 3 returns the SRA-not-found outcome immediately —
one attempt consumed, no sleep, no retries regardless of the remaining
budget; (ii) any other failure with attempts remaining sleeps 10 seconds
and retries; (iii) a failure on the last attempt re-raises that error;
(iv) when every attempt fails with the same non-(is_sra ∧ 3) error, the
whole call makes exactly `maxAttempts` attempts, sleeps
`10 * (maxAttempts - 1)` seconds, and re-raises the last error. -/
theorem execute_sra_exit3_and_retry_policy :
    (∀ (cmdAttempts : Nat → CmdAttempt) (captureStdout : Bool)
       (remaining attempt slept : Nat) (err : String),
       cmdAttempts attempt = .failure 3 err →
       execute_go cmdAttempts captureStdout true (remaining + 1) attempt slept =
         ⟨.sraNotFound err, attempt + 1, slept⟩) ∧
    (∀ (cmdAttempts : Nat → CmdAttempt) (captureStdout isSra : Bool)
       (remaining attempt slept : Nat) (rc : Int) (err : String),
       cmdAttempts attempt = .failure rc err → ¬(isSra = true ∧ rc = 3) → 0 < remaining →
       execute_go cmdAttempts captureStdout isSra (remaining + 1) attempt slept =
         execute_go cmdAttempts captureStdout isSra remaining (attempt + 1) (slept + 10)) ∧
    (∀ (cmdAttempts : Nat → CmdAttempt) (captureStdout isSra : Bool)
       (attempt slept : Nat) (rc : Int) (err : String),
       cmdAttempts attempt = .failure rc err → ¬(isSra = true ∧ rc = 3) →
       execute_go cmdAttempts captureStdout isSra 1 attempt slept =
         ⟨.raised rc, attempt + 1, slept⟩) ∧
    (∀ (cmdAttempts : Nat → CmdAttempt) (captureStdout isSra : Bool) (maxAttempts : Nat)
       (rc : Int) (err : String),
       (∀ n, cmdAttempts n = .failure rc err) → ¬(isSra = true ∧ rc = 3) →
       1 ≤ maxAttempts →
       execute cmdAttempts captureStdout isSra maxAttempts =
         ⟨.raised rc, maxAttempts, 10 * (maxAttempts - 1)⟩) := by
  refine ⟨?_, ?_, ?_, ?_⟩
  · intro cmdAttempts captureStdout remaining attempt slept err h
    simp [execute_go, h]
  · intro cmdAttempts captureStdout isSra remaining attempt slept rc err h hnot h0
    simp only [execute_go]
    rw [h]
    simp only [if_neg hnot, if_pos h0]
  · intro cmdAttempts captureStdout isSra attempt slept rc err h hnot
    simp only [execute_go]
    rw [h]
    simp only [if_neg hnot]
    simp
  · intro cmdAttempts captureStdout isSra maxAttempts rc err hall hnot hmax
    unfold execute
    rw [execute_go_all_fail cmdAttempts captureStdout isSra rc err hall hnot maxAttempts 0 0 hmax]
    simp only [ExecTrace.mk.injEq]
    exact ⟨by trivial, by omega, by omega⟩

/-- **C7 witness.** A concrete `is_sra` exit-3 failure returning the
SRA-not-found outcome after exactly one attempt. -/
theorem execute_sra_exit3_witness :
    execute_go (fun _ => .failure 3 "no data") false true 10 0 0 =
      ⟨.sraNotFound "no data", 1, 0⟩ :=
  execute_sra_exit3_and_retry_policy.1 (fun _ => .failure 3 "no data") false 9 0 0 "no data"
    (by decide)

/-! ## Lemmas about the ENA per-file loop -/

theorem ena_loop_single_end_iff (runAcc layout : String) (total : Nat) (outdir : String)
    (oracle : Nat → Option FileContents) (digest : FileContents → String)
    (maxAttempts : Nat) (ftpOnly : Bool) (ftp md5 : List String) :
    ∀ (files : List String) (i : Nat) (fq : FileSet) (fs : FS) (idx : Nat)
      (fq2 : FileSet) (fs2 : FS) (i2 : Nat),
      (fq.single_end = false ↔ fq.r2 ≠ "") →
      ena_loop runAcc layout total outdir oracle digest maxAttempts ftpOnly ftp md5
        files i fq fs idx = .ok fq2 fs2 i2 →
      (fq2.single_end = false ↔ fq2.r2 ≠ "") := by
  intro files
  induction files with
  | nil =>
    intro i fq fs idx fq2 fs2 i2 hinv h
    simp only [ena_loop] at h
    cases h
    exact hinv
  | cons f rest ih =>
    intro i fq fs idx fq2 fs2 i2 hinv h
    simp only [ena_loop] at h
    split at h
    · exact ih _ _ _ _ _ _ _ hinv h
    · cases hmd : md5[i]? with
      | none =>
        simp only [hmd] at h
        cases h
      | some m =>
        simp only [hmd] at h
        split at h
        · cases hft : ftp[i]? with
          | none =>
            simp only [hft] at h
            cases h
          | some ft =>
            simp only [hft] at h
            cases hdl : download_ena_fastq oracle digest f ft outdir m maxAttempts ftpOnly fs idx with
            | fatal fs3 i3 =>
              simp only [hdl] at h
              cases h
            | accepted fastq fs3 i3 =>
              simp only [hdl] at h
              obtain ⟨hpath, _⟩ := download_accepted_target _ _ _ _ _ _ _ _ _ _ _ _ _ hdl
              by_cases hr2 : ((layout == "PAIRED") && strEndsWith f "_2.fastq.gz") = true
              · rw [if_pos hr2] at h
                refine ih _ _ _ _ _ _ _ ?_ h
                constructor
                · intro _
                  show fastq ≠ ""
                  rw [hpath]
                  exact slash_path_ne_empty _ _
                · intro _
                  rfl
              · rw [if_neg hr2] at h
                refine ih _ _ _ _ _ _ _ ?_ h
                exact hinv
        · exact ih _ _ _ _ _ _ _ hinv h

theorem ena_loop_no_oob (runAcc layout : String) (total : Nat) (outdir : String)
    (oracle : Nat → Option FileContents) (digest : FileContents → String)
    (maxAttempts : Nat) (ftpOnly : Bool) (ftp md5 : List String) :
    ∀ (files : List String) (i : Nat) (fq : FileSet) (fs : FS) (idx : Nat),
      i + files.length ≤ ftp.length → i + files.length ≤ md5.length →
      ena_loop runAcc layout total outdir oracle digest maxAttempts ftpOnly ftp md5
        files i fq fs idx ≠ .indexError := by
  intro files
  induction files with
  | nil =>
    intro i fq fs idx h1 h2 h
    simp only [ena_loop] at h
    cases h
  | cons f rest ih =>
    intro i fq fs idx h1 h2 h
    simp only [List.length_cons] at h1 h2
    simp only [ena_loop] at h
    split at h
    · exact ih (i + 1) _ _ _ (by omega) (by omega) h
    · cases hmd : md5[i]? with
      | none =>
        rw [List.getElem?_eq_getElem (by omega)] at hmd
        cases hmd
      | some m =>
        simp only [hmd] at h
        split at h
        · cases hft : ftp[i]? with
          | none =>
            rw [List.getElem?_eq_getElem (by omega)] at hft
            cases hft
          | some ft =>
            simp only [hft] at h
            cases hdl : download_ena_fastq oracle digest f ft outdir m maxAttempts ftpOnly fs idx with
            | fatal fs3 i3 =>
              simp only [hdl] at h
              cases h
            | accepted fastq fs3 i3 =>
              simp only [hdl] at h
              exact ih (i + 1) _ _ _ (by omega) (by omega) h
        · exact ih (i + 1) _ _ _ (by omega) (by omega) h

/-! ## C2: the PAIRED filename filter -/

/-- **C2 counterexample.** Run accession `X`, layout `PAIRED`, three files
`[X.fastq.gz, X_1.fastq.gz, X_2.fastq.gz]`.  `X.fastq.gz` ends in neither
suffix and is not the only file, so per the claim it must be skipped; the
code keeps it because its basename equals `<run_accession>.fastq.gz` (the
source condition is an OR, not an AND): it is downloaded (present in the
final file system, three oracle calls consumed instead of two). -/
theorem paired_filter_and_rule_cex :
    ena_download
      ⟨"X", "E", "S", "PAIRED", "h/X.fastq.gz;h/X_1.fastq.gz;h/X_2.fastq.gz",
        "h/X.fastq.gz;h/X_1.fastq.gz;h/X_2.fastq.gz", "m;m;m"⟩
      "out" (fun _ => some [7]) (fun _ => "m") 10 false [] 0 =
    .ok ⟨"out/X_1.fastq.gz", "out/X_2.fastq.gz", false⟩
      [("out/X_2.fastq.gz", [7]), ("out/X_1.fastq.gz", [7]), ("out/X.fastq.gz", [7])] 3 := by
  decide

/-- **C2 (amended).** In `PAIRED` layout a file ending in neither
`_1.fastq.gz` nor `_2.fastq.gz` is skipped iff there is more than one file
AND its basename differs from `<run_accession>.fastq.gz` — equivalently it
is kept iff it is the only file OR its basename equals
`<run_accession>.fastq.gz`.  A skipped file contributes nothing: no
download, no state change.  In particular, for files
`[X_1.fastq.gz, X_2.fastq.gz, X_3.fastq.gz]` with layout `PAIRED` and run
accession `R ≠ X`, the third file is excluded from the resulting
`FileSet` (and never downloaded: two oracle calls, two files on disk). -/
theorem paired_filter_keep_rule :
    (∀ (layout : String) (total : Nat) (runAcc f : String),
      ena_skip layout total runAcc f = true ↔
        (layout = "PAIRED" ∧ strEndsWith f "_2.fastq.gz" = false ∧
          strEndsWith f "_1.fastq.gz" = false ∧ total ≠ 1 ∧
          basename f ≠ runAcc ++ ".fastq.gz")) ∧
    (∀ (runAcc layout : String) (total : Nat) (outdir : String)
       (oracle : Nat → Option FileContents) (digest : FileContents → String)
       (maxAttempts : Nat) (ftpOnly : Bool) (ftp md5 : List String)
       (f : String) (rest : List String) (i : Nat) (fq : FileSet) (fs : FS) (idx : Nat),
      ena_skip layout total runAcc f = true →
      ena_loop runAcc layout total outdir oracle digest maxAttempts ftpOnly ftp md5
        (f :: rest) i fq fs idx =
      ena_loop runAcc layout total outdir oracle digest maxAttempts ftpOnly ftp md5
        rest (i + 1) fq fs idx) ∧
    ena_download
      ⟨"R", "E", "S", "PAIRED", "h/X_1.fastq.gz;h/X_2.fastq.gz;h/X_3.fastq.gz",
        "h/X_1.fastq.gz;h/X_2.fastq.gz;h/X_3.fastq.gz", "m;m;m"⟩
      "out" (fun _ => some [7]) (fun _ => "m") 10 false [] 0 =
    .ok ⟨"out/X_1.fastq.gz", "out/X_2.fastq.gz", false⟩
      [("out/X_2.fastq.gz", [7]), ("out/X_1.fastq.gz", [7])] 2 := by
  refine ⟨?_, ?_, by decide⟩
  · intro layout total runAcc f
    simp [ena_skip, Bool.and_eq_true, Bool.not_eq_true', beq_iff_eq, bne_iff_ne, and_assoc]
  · intro runAcc layout total outdir oracle digest maxAttempts ftpOnly ftp md5 f rest i fq fs idx h
    simp [ena_loop, h]

/-- **C2 witness.** A concretely skipped file: same loop state afterwards,
index advanced by one. -/
theorem paired_filter_keep_rule_witness :
    ena_loop "R" "PAIRED" 2 "out" (fun _ => some [7]) (fun _ => "m") 10 false
      ["x", "y"] ["m", "m"] ["h/junk", "h/R_1.fastq.gz"] 0 ⟨"", "", true⟩ [] 0 =
    ena_loop "R" "PAIRED" 2 "out" (fun _ => some [7]) (fun _ => "m") 10 false
      ["x", "y"] ["m", "m"] ["h/R_1.fastq.gz"] 1 ⟨"", "", true⟩ [] 0 :=
  paired_filter_keep_rule.2.1 "R" "PAIRED" 2 "out" (fun _ => some [7]) (fun _ => "m")
    10 false ["x", "y"] ["m", "m"] "h/junk" ["h/R_1.fastq.gz"] 0 ⟨"", "", true⟩ [] 0 (by decide)

/-! ## C8: the FileSet single-end/paired invariant -/

/-- **C8 counterexample.** A `PAIRED` run publishing only an `_2` file:
`ena_download` returns a `FileSet` with `single_end = false` but `r1 = ""`,
violating "if `single_end` is false then both r1 and r2 are non-empty". -/
theorem fileset_invariant_cex :
    ena_download ⟨"A", "E", "S", "PAIRED", "h/A_2.fastq.gz", "h/A_2.fastq.gz", "m"⟩
      "out" (fun _ => some [7]) (fun _ => "m") 10 false [] 0 =
      .ok ⟨"", "out/A_2.fastq.gz", false⟩ [("out/A_2.fastq.gz", [7])] 1 := by
  decide

/-- **C8 (amended).** For every `FileSet` produced by `ena_download`,
`single_end` is false iff `r2` was populated (a non-empty path) — but `r1`
may be empty when the run published only an `_2` file.  For every `FileSet`
produced by `sra_download` the full invariant holds: `single_end = false`
implies both `r1` and `r2` non-empty, and `single_end` is true iff `r2` is
empty. -/
theorem fileset_single_end_invariant :
    (∀ (run : RunRecord) (outdir : String) (oracle : Nat → Option FileContents)
       (digest : FileContents → String) (maxAttempts : Nat) (ftpOnly : Bool)
       (fs : FS) (idx : Nat) (fq : FileSet) (fs2 : FS) (i2 : Nat),
      ena_download run outdir oracle digest maxAttempts ftpOnly fs idx = .ok fq fs2 i2 →
      (fq.single_end = false ↔ fq.r2 ≠ "")) ∧
    (∀ (accession outdir : String) (tool : Option FS) (fs : FS) (fq : FileSet) (fs2 : FS),
      sra_download accession outdir tool fs = .ok fq fs2 →
      (fq.single_end = false → fq.r1 ≠ "" ∧ fq.r2 ≠ "") ∧
      (fq.single_end = true ↔ fq.r2 = "")) := by
  constructor
  · intro run outdir oracle digest maxAttempts ftpOnly fs idx fq fs2 i2 h
    unfold ena_download at h
    split at h
    · cases h
    · exact ena_loop_single_end_iff _ _ _ _ _ _ _ _ _ _ _ _ _ _ _ _ _ _ (by simp) h
  · intro accession outdir tool fs fq fs2 h
    unfold sra_download at h
    split at h
    · cases h
    · split at h
      · cases h
        refine ⟨fun _ => ⟨slash_path3_ne_empty _ _ _, slash_path3_ne_empty _ _ _⟩, ?_⟩
        constructor
        · intro hcontra
          cases hcontra
        · intro hpe
          exact absurd hpe (slash_path3_ne_empty _ _ _)
      · cases h
        constructor
        · intro hcontra
          cases hcontra
        · simp

/-- **C8 witness.** A concrete paired ENA download satisfying the
invariant. -/
theorem fileset_single_end_witness :
    ((⟨"out/A_1.fastq.gz", "out/A_2.fastq.gz", false⟩ : FileSet).single_end = false ↔
      (⟨"out/A_1.fastq.gz", "out/A_2.fastq.gz", false⟩ : FileSet).r2 ≠ "") :=
  fileset_single_end_invariant.1
    ⟨"A", "E", "S", "PAIRED", "h/A_1.fastq.gz;h/A_2.fastq.gz",
      "h/A_1.fastq.gz;h/A_2.fastq.gz", "m;m"⟩ "out" (fun _ => some [7]) (fun _ => "m")
    10 false [] 0 ⟨"out/A_1.fastq.gz", "out/A_2.fastq.gz", false⟩
    [("out/A_2.fastq.gz", [7]), ("out/A_1.fastq.gz", [7])] 2 (by decide)

/-! ## C9: parallel-list indexing -/

/-- **C9 counterexample.** A run whose `fastq_md5` list (length 1) is
shorter than its `fastq_aspera` list (length 2), but whose second position
is removed by the `PAIRED` filter: no index error — `ena_download` returns
a `FileSet`, contradicting "for a RunRecord whose ftp or md5 list is
shorter than the aspera list, the operation fails with an index error
instead of returning a FileSet". -/
theorem parallel_lists_short_md5_cex :
    (splitOnChar ';' "m").length < (splitOnChar ';' "h/A_1.fastq.gz;h/junk").length ∧
    ena_download ⟨"A", "E", "S", "PAIRED", "h/A_1.fastq.gz;h/junk",
        "h/A_1.fastq.gz;h/junk", "m"⟩
      "out" (fun _ => some [7]) (fun _ => "m") 10 false [] 0 =
      .ok ⟨"out/A_1.fastq.gz", "", true⟩ [("out/A_1.fastq.gz", [7])] 1 :=
  ⟨by decide, by decide⟩

/-- **C9 (amended).** When the `;`-split `fastq_aspera`, `fastq_ftp` and
`fastq_md5` lists have equal lengths, no list access in `ena_download` is
out of bounds — the `IndexError` branch is unreachable.  A shorter ftp or
md5 list produces an `IndexError` only when a position past its end is
actually reached (not filtered out, and for the ftp list additionally its
md5 entry non-empty); the second conjunct shows a concrete shorter md5
list whose out-of-range position is reached and raises. -/
theorem parallel_lists_oob_safety :
    (∀ (run : RunRecord) (outdir : String) (oracle : Nat → Option FileContents)
       (digest : FileContents → String) (maxAttempts : Nat) (ftpOnly : Bool)
       (fs : FS) (idx : Nat),
      (splitOnChar ';' run.fastq_aspera).length = (splitOnChar ';' run.fastq_ftp).length →
      (splitOnChar ';' run.fastq_aspera).length = (splitOnChar ';' run.fastq_md5).length →
      ena_download run outdir oracle digest maxAttempts ftpOnly fs idx ≠ .indexError) ∧
    ena_download ⟨"A", "E", "S", "PAIRED", "h/A_1.fastq.gz;h/A_2.fastq.gz",
        "h/A_1.fastq.gz;h/A_2.fastq.gz", "m"⟩
      "out" (fun _ => some [7]) (fun _ => "m") 10 false [] 0 = .indexError := by
  constructor
  · intro run outdir oracle digest maxAttempts ftpOnly fs idx h1 h2
    unfold ena_download
    split
    · intro h
      cases h
    · exact ena_loop_no_oob _ _ _ _ _ _ _ _ _ _ _ 0 _ _ _ (by omega) (by omega)
  · decide

/-- **C9 witness.** Equal-length parallel lists: no index error on a
concrete run. -/
theorem parallel_lists_oob_witness :
    ena_download ⟨"A", "E", "S", "PAIRED", "h/A_1.fastq.gz", "h/A_1.fastq.gz", "m"⟩
      "out" (fun _ => some [7]) (fun _ => "m") 10 false [] 0 ≠ .indexError :=
  parallel_lists_oob_safety.1
    ⟨"A", "E", "S", "PAIRED", "h/A_1.fastq.gz", "h/A_1.fastq.gz", "m"⟩
    "out" (fun _ => some [7]) (fun _ => "m") 10 false [] 0 (by decide) (by decide)

/-! ## Lemmas about merging and grouping -/

theorem lookup_foldl_remove (runs : List String) (fs : FS) (p : String) :
    (runs.foldl (fun a q => a.remove q) fs).lookup p =
      if p ∈ runs then none else fs.lookup p := by
  induction runs generalizing fs with
  | nil => simp
  | cons r rest ih =>
    simp only [List.foldl_cons, ih, FS.lookup_remove]
    by_cases h1 : p ∈ rest
    · simp [h1, List.mem_cons]
    · by_cases h2 : r = p
      · subst h2
        simp [h1, List.mem_cons]
      · have h2' : ¬p = r := fun hh => h2 hh.symm
        simp [h1, h2, h2', List.mem_cons]

theorem foldr_append_eq_join {α : Type} (g : α → FileContents) (l : List α) :
    l.foldr (fun p acc => g p ++ acc) [] = (l.map g).flatten := by
  induction l with
  | nil => rfl
  | cons x xs ih => simp [ih]

theorem cat_contents_eq_join (fs : FS) (runs : List String) :
    cat_contents fs runs = (runs.map (fun p => (fs.lookup p).getD [])).flatten :=
  foldr_append_eq_join _ runs

theorem merge_runs_ne_none (runs : List String) (output : String) (fs : FS)
    (h : runs ≠ []) : merge_runs runs output fs ≠ none := by
  unfold merge_runs
  split
  · simp
  · cases runs with
    | nil => exact absurd rfl h
    | cons r rest => simp

theorem groups_find_upsert (gs : List (String × MergeGroup)) (n m : String)
    (g : MergeGroup) :
    groups_find (groups_upsert gs n g) m = if n = m then some g else groups_find gs m := by
  induction gs with
  | nil => simp [groups_upsert, groups_find]
  | cons e rest ih =>
    obtain ⟨k, h⟩ := e
    simp only [groups_upsert]
    by_cases hk : k = n
    · rw [if_pos hk]
      simp only [groups_find]
      by_cases hnm : n = m
      · simp [hnm]
      · have hkm : ¬k = m := fun hh => hnm (by rw [← hk, hh])
        simp [hnm, hkm]
    · rw [if_neg hk]
      simp only [groups_find, ih]
      by_cases hkm : k = m
      · have hnm : ¬n = m := fun hh => hk (by rw [hkm, hh])
        simp [hkm, hnm]
      · simp [hkm]

theorem accumulate_groups_nonempty_aux :
    ∀ (results : List (String × Option FileSet)) (gs : List (String × MergeGroup)),
      (∀ n g, groups_find gs n = some g → g.r1 ≠ []) →
      ∀ n g,
        groups_find
          (results.foldl
            (fun gs r =>
              match r.2 with
              | none => gs
              | some fq => add_run_to_groups gs r.1 fq)
            gs) n = some g →
        g.r1 ≠ [] := by
  intro results
  induction results with
  | nil => intro gs hinv n g h; exact hinv n g h
  | cons r rest ih =>
    intro gs hinv n g h
    simp only [List.foldl_cons] at h
    cases hr : r.2 with
    | none =>
      rw [hr] at h
      exact ih _ hinv n g h
    | some fq =>
      rw [hr] at h
      refine ih _ ?_ n g h
      intro n' g' hf
      simp only [add_run_to_groups] at hf
      rw [groups_find_upsert] at hf
      split at hf
      · cases hf
        split <;> simp
      · exact hinv n' g' hf

/-! ## C5: merge dispatch, rename shortcut, concatenation -/

/-- **C5.** The final merge of `main`: when a group's r1 and r2 lists are
both non-empty and of equal length, the r1 list is merged to
`<group>_R1.fastq.gz` and then the r2 list to `<group>_R2.fastq.gz`;
otherwise only the r1 list is merged to `<group>.fastq.gz`.  `merge_runs`
on a one-element list moves the single file to the target (target holds
its contents, source is gone, everything else untouched); on a longer list
it writes the byte-wise concatenation of the files, in list order, to the
target and then deletes every source file. -/
theorem merge_runs_and_group_dispatch :
    (∀ (name outdir : String) (r1 r2 : List String) (fs : FS),
      r1 ≠ [] → r2 ≠ [] → r1.length = r2.length →
      merge_group name outdir r1 r2 fs =
        (merge_runs r1 (outdir ++ "/" ++ name ++ "_R1.fastq.gz") fs).bind
          (merge_runs r2 (outdir ++ "/" ++ name ++ "_R2.fastq.gz"))) ∧
    (∀ (name outdir : String) (r1 r2 : List String) (fs : FS),
      ¬(r1 ≠ [] ∧ r2 ≠ [] ∧ r1.length = r2.length) →
      merge_group name outdir r1 r2 fs =
        merge_runs r1 (outdir ++ "/" ++ name ++ ".fastq.gz") fs) ∧
    (∀ (r output : String) (fs : FS) (c : FileContents),
      fs.lookup r = some c →
      ∃ fs2, merge_runs [r] output fs = some fs2 ∧
        fs2.lookup output = some c ∧
        (r ≠ output → fs2.lookup r = none) ∧
        (∀ p, p ≠ output → p ≠ r → fs2.lookup p = fs.lookup p)) ∧
    (∀ (runs : List String) (output : String) (fs : FS),
      1 < runs.length → output ∉ runs →
      ∃ fs2, merge_runs runs output fs = some fs2 ∧
        fs2.lookup output = some ((runs.map (fun p => (fs.lookup p).getD [])).flatten) ∧
        (∀ p ∈ runs, fs2.lookup p = none) ∧
        (∀ p, p ≠ output → p ∉ runs → fs2.lookup p = fs.lookup p)) := by
  refine ⟨?_, ?_, ?_, ?_⟩
  · intro name outdir r1 r2 fs h1 h2 hlen
    unfold merge_group
    rw [if_pos ⟨by simpa using h1, by simpa using h2⟩, if_pos hlen]
    cases merge_runs r1 (outdir ++ "/" ++ name ++ "_R1.fastq.gz") fs <;> rfl
  · intro name outdir r1 r2 fs h
    unfold merge_group
    by_cases hc : r1.length ≠ 0 ∧ r2.length ≠ 0
    · rw [if_pos hc]
      have hne : r1.length ≠ r2.length := by
        intro hl
        exact h ⟨by simpa using hc.1, by simpa using hc.2, hl⟩
      rw [if_neg hne]
    · rw [if_neg hc]
  · intro r output fs c hc
    refine ⟨(fs.remove r).write output ((fs.lookup r).getD []), ?_, ?_, ?_, ?_⟩
    · unfold merge_runs
      rw [if_neg (by simp)]
    · rw [FS.lookup_write_self, hc]
      rfl
    · intro hro
      rw [FS.lookup_write_other _ _ _ _ (Ne.symm hro), FS.lookup_remove]
      simp
    · intro p hpo hpr
      rw [FS.lookup_write_other _ _ _ _ (Ne.symm hpo), FS.lookup_remove,
        if_neg (fun hh => hpr hh.symm)]
  · intro runs output fs hlen hout
    refine ⟨runs.foldl (fun a p => a.remove p) (fs.write output (cat_contents fs runs)),
      ?_, ?_, ?_, ?_⟩
    · unfold merge_runs
      rw [if_pos hlen]
    · rw [lookup_foldl_remove, if_neg hout, FS.lookup_write_self, cat_contents_eq_join]
    · intro p hp
      rw [lookup_foldl_remove, if_pos hp]
    · intro p hpo hpr
      rw [lookup_foldl_remove, if_neg hpr, FS.lookup_write_other _ _ _ _ (Ne.symm hpo)]

/-- **C5 witness.** A concrete one-element merge: the file is moved to the
target. -/
theorem merge_runs_witness :
    ∃ fs2, merge_runs ["a.fq"] "b.fq" [("a.fq", [1, 2])] = some fs2 ∧
      fs2.lookup "b.fq" = some [1, 2] ∧
      ("a.fq" ≠ "b.fq" → fs2.lookup "a.fq" = none) ∧
      (∀ p, p ≠ "b.fq" → p ≠ "a.fq" →
        fs2.lookup p = FS.lookup [("a.fq", [1, 2])] p) :=
  merge_runs_and_group_dispatch.2.2.1 "a.fq" "b.fq" [("a.fq", [1, 2])] [1, 2] (by decide)

/-! ## C10: groups always have a non-empty r1 list -/

/-- **C10.** Every group in the accumulator has a non-empty r1 list: a
group entry is created only when a run's download produced a `FileSet`,
and every contributing `FileSet` appends an r1 path (single-end or
paired).  Hence the final merge loop never reaches `merge_runs` on an
empty list: `merge_group` on a non-empty r1 list never returns the
`IndexError` outcome (`none`), the single-element access of its rename
branch being in bounds. -/
theorem groups_nonempty_r1_and_merge_safe :
    (∀ (results : List (String × Option FileSet)) (name : String) (g : MergeGroup),
      groups_find (accumulate_groups results) name = some g → g.r1 ≠ []) ∧
    (∀ (name outdir : String) (r1 r2 : List String) (fs : FS),
      r1 ≠ [] → merge_group name outdir r1 r2 fs ≠ none) := by
  constructor
  · intro results name g h
    refine accumulate_groups_nonempty_aux results [] ?_ name g h
    intro n g' hf
    cases hf
  · intro name outdir r1 r2 fs h
    unfold merge_group
    split
    · rename_i hc
      split
      · cases hm : merge_runs r1 (outdir ++ "/" ++ name ++ "_R1.fastq.gz") fs with
        | none => exact absurd hm (merge_runs_ne_none _ _ _ h)
        | some fs1 =>
          exact merge_runs_ne_none _ _ _ (by simpa using hc.2)
      · exact merge_runs_ne_none _ _ _ h
    · exact merge_runs_ne_none _ _ _ h

/-- **C10 witness.** One single-end run grouped under `"S"`: the resulting
group's r1 list is non-empty. -/
theorem groups_nonempty_r1_witness : (MergeGroup.mk ["a"] []).r1 ≠ [] :=
  groups_nonempty_r1_and_merge_safe.1 [("S", some ⟨"a", "", true⟩)] "S" ⟨["a"], []⟩
    (by decide)
